import Mathlib

/-!
# Verification of the Horizon LSP gateway (src-tauri/src/lsp)

Shallow embedding of the data model and operations of the language-server
gateway: the JSON-RPC process link (`protocol.rs`), the project-root
resolver and server registry (`server_factory.rs`), the Rust language
adapter's document tables and null-result handling (`servers/rust.rs`),
the WebSocket message handler (`websocket.rs`), the gateway lifecycle and
the hover formatter (`mod.rs`).
-/

namespace Horizon

/-! ## Association-list maps

`HashMap<K, V>` and `DashMap<K, V>` are modelled as association lists with
`insert` replacing an existing binding in place (as `HashMap::insert` does)
and appending otherwise. -/

def lookupKey [DecidableEq κ] (k : κ) : List (κ × ν) → Option ν
  | [] => none
  | (k', v) :: t => if k' = k then some v else lookupKey k t

def insertReplace [DecidableEq κ] (k : κ) (v : ν) : List (κ × ν) → List (κ × ν)
  | [] => [(k, v)]
  | (k', v') :: t => if k' = k then (k, v) :: t else (k', v') :: insertReplace k v t

def eraseKey [DecidableEq κ] (k : κ) : List (κ × ν) → List (κ × ν)
  | [] => []
  | (k', v') :: t => if k' = k then t else (k', v') :: eraseKey k t

theorem lookupKey_eraseKey_ne [DecidableEq κ] (k j : κ) (l : List (κ × ν)) (h : k ≠ j) :
    lookupKey k (eraseKey j l) = lookupKey k l := by
  induction l with
  | nil => rfl
  | cons p t ih =>
    obtain ⟨k', v'⟩ := p
    by_cases hj : k' = j
    · subst hj
      simp [eraseKey, lookupKey, Ne.symm h]
    · simp only [eraseKey, if_neg hj, lookupKey, ih]

theorem insertReplace_eq_append [DecidableEq κ] (k : κ) (v : ν) (l : List (κ × ν))
    (h : ∀ p ∈ l, p.1 ≠ k) : insertReplace k v l = l ++ [(k, v)] := by
  induction l with
  | nil => rfl
  | cons p t ih =>
    obtain ⟨k', v'⟩ := p
    have hne : k' ≠ k := h (k', v') (List.mem_cons_self _ _)
    simp only [insertReplace, if_neg hne, List.cons_append, List.cons.injEq, true_and]
    exact ih (fun q hq => h q (List.mem_cons_of_mem _ hq))

/-! ## C1 — the JSON-RPC process link (`protocol.rs`, `LspProcessConnection`)

One *link* owns a `Content-Length`-framed channel to the child process: the
shared `response_handlers` map (request id → pending one-shot sender) and
the shared `stdin`.  Each `LspProcessConnection` *handle* on that link has
its own `next_id : AtomicU64`; `impl Clone` (protocol.rs:93-101) shares the
map but gives the clone a fresh `AtomicU64` loaded from the source handle's
current value.  We model the link state with the pending map and the list
of per-handle counters (handle = index); callers are abstract tokens. -/

structure LspLinkState where
  /-- `response_handlers`: request id ↦ the caller token whose one-shot
  sender is registered under that id.  `HashMap::insert` replaces. -/
  response_handlers : List (Nat × Nat)
  /-- One `next_id` counter per handle of this link; handle 0 is the
  connection returned by `LspProcessConnection::new` (counter starts at 1). -/
  next_ids : List Nat

/-- `LspProcessConnection::new`: empty pending map, one handle, `next_id = 1`. -/
def LspLinkState.new : LspLinkState := ⟨[], [1]⟩

/-- `impl Clone for LspProcessConnection` (protocol.rs:93-101): the clone
shares `response_handlers` (and `stdin`) but gets
`AtomicU64::new(self.next_id.load(SeqCst))` — a snapshot of the counter. -/
def LspLinkState.clone_handle (st : LspLinkState) (h : Nat) : LspLinkState :=
  { st with next_ids := st.next_ids ++ [st.next_ids.getD h 0] }

/-- `send_request` (protocol.rs:132-168) through handle `h`: allocate
`id = next_id.fetch_add(1)`, then `response_handlers.insert(id, tx)`
(replacing any pending entry already registered under `id`).  Returns the
allocated id together with the new link state. -/
def LspLinkState.send_request (st : LspLinkState) (h : Nat) (caller : Nat) :
    Nat × LspLinkState :=
  let id := st.next_ids.getD h 0
  (id, { response_handlers := insertReplace id caller st.response_handlers,
         next_ids := st.next_ids.set h (id + 1) })

/-- The read loop's response dispatch (protocol.rs:233-239): on a response
with numeric id, `response_handlers.remove(&id)` and, when an entry was
present, resolve exactly that caller with the response. -/
def LspLinkState.deliver_response (st : LspLinkState) (respId : Nat) :
    Option Nat × LspLinkState :=
  match lookupKey respId st.response_handlers with
  | some caller => (some caller, { st with response_handlers := eraseKey respId st.response_handlers })
  | none => (none, st)

/-- A batch of `send_request` calls through one handle, in some serial order
of their atomic id allocations (any interleaving of N concurrent calls is
one such order, since `fetch_add` is atomic). -/
def LspLinkState.send_many (st : LspLinkState) (h : Nat) : List Nat → List Nat × LspLinkState
  | [] => ([], st)
  | caller :: rest =>
    let r := st.send_request h caller
    let rr := r.2.send_many h rest
    (r.1 :: rr.1, rr.2)

/-- The read loop delivering a list of responses in arrival order; the log
pairs each response id with the caller it resolved (if any). -/
def LspLinkState.deliver_all (st : LspLinkState) : List Nat → List (Nat × Option Nat) × LspLinkState
  | [] => ([], st)
  | i :: rest =>
    let r := st.deliver_response i
    let rr := r.2.deliver_all rest
    ((i, r.1) :: rr.1, rr.2)

theorem send_many_spec (callers : List Nat) (H : List (Nat × Nat)) (c0 : Nat)
    (hk : ∀ p ∈ H, p.1 < c0) :
    LspLinkState.send_many ⟨H, [c0]⟩ 0 callers =
      (List.range' c0 callers.length,
       ⟨H ++ (List.range' c0 callers.length).zip callers, [c0 + callers.length]⟩) := by
  induction callers generalizing H c0 with
  | nil => simp [LspLinkState.send_many]
  | cons c cs ih =>
    have hstep : LspLinkState.send_request ⟨H, [c0]⟩ 0 c =
        (c0, ⟨H ++ [(c0, c)], [c0 + 1]⟩) := by
      simp only [LspLinkState.send_request]
      refine Prod.ext ?_ ?_
      · rfl
      · refine congrArg₂ LspLinkState.mk ?_ rfl
        exact insertReplace_eq_append c0 c H (fun p hp => Nat.ne_of_lt (hk p hp))
    have hk' : ∀ p ∈ H ++ [(c0, c)], p.1 < c0 + 1 := by
      intro p hp
      rcases List.mem_append.mp hp with h1 | h2
      · exact Nat.lt_succ_of_lt (hk p h1)
      · rcases List.mem_singleton.mp h2 with rfl
        exact Nat.lt_succ_self c0
    simp only [LspLinkState.send_many, hstep, ih (H ++ [(c0, c)]) (c0 + 1) hk']
    refine Prod.ext rfl ?_
    simp only [List.length_cons, List.range'_succ, List.zip_cons_cons, List.append_assoc,
      List.singleton_append]
    refine congrArg₂ LspLinkState.mk rfl ?_
    simp [Nat.add_comm, Nat.add_assoc, Nat.add_left_comm]

theorem lookup_zip_range' (n : Nat) : ∀ (c0 i : Nat) (cs : List Nat), cs.length = n →
    c0 ≤ i → i < c0 + n → lookupKey i ((List.range' c0 n).zip cs) = cs.get? (i - c0) := by
  induction n with
  | zero => intro c0 i cs _ h1 h2; omega
  | succ m ih =>
    intro c0 i cs hlen h1 h2
    match cs with
    | [] => simp at hlen
    | c :: cs' =>
      rw [List.range'_succ, List.zip_cons_cons]
      simp only [lookupKey]
      by_cases hi : c0 = i
      · subst hi
        simp
      · rw [if_neg hi]
        have h1' : c0 + 1 ≤ i := by omega
        rw [ih (c0 + 1) i cs' (by simpa using hlen) h1' (by omega)]
        have hsub : i - c0 = (i - (c0 + 1)) + 1 := by omega
        rw [hsub]
        rfl

theorem deliver_all_log (order : List Nat) :
    ∀ (st : LspLinkState) (f : Nat → Option Nat), order.Nodup →
    (∀ i ∈ order, lookupKey i st.response_handlers = f i) →
    (st.deliver_all order).1 = order.map (fun i => (i, f i)) := by
  induction order with
  | nil => intro st f _ _; rfl
  | cons i rest ih =>
    intro st f hnd hl
    have hhead : lookupKey i st.response_handlers = f i :=
      hl i (List.mem_cons_self _ _)
    have hni : i ∉ rest := (List.nodup_cons.mp hnd).1
    have hnd' : rest.Nodup := (List.nodup_cons.mp hnd).2
    cases hfi : f i with
    | some c =>
      rw [hfi] at hhead
      have htail : ∀ j ∈ rest,
          lookupKey j ({ st with response_handlers := eraseKey i st.response_handlers } :
            LspLinkState).response_handlers = f j := by
        intro j hj
        show lookupKey j (eraseKey i st.response_handlers) = f j
        rw [lookupKey_eraseKey_ne j i st.response_handlers
          (fun hji => hni (hji ▸ hj))]
        exact hl j (List.mem_cons_of_mem _ hj)
      have hrec := ih { st with response_handlers := eraseKey i st.response_handlers } f hnd' htail
      simp only [LspLinkState.deliver_all, LspLinkState.deliver_response, hhead]
      simp [hrec, hfi]
    | none =>
      rw [hfi] at hhead
      have hrec := ih st f hnd' (fun j hj => hl j (List.mem_cons_of_mem _ hj))
      simp only [LspLinkState.deliver_all, LspLinkState.deliver_response, hhead]
      simp [hrec, hfi]

/-- C1, counterexample.  The claim speaks of send_request calls "on one
LspProcessConnection link".  The adapter performs every request through a
fresh clone of the stored connection (`rust.rs:246`,
`guard.as_ref().cloned()`), and `impl Clone` gives each clone a snapshot
of the id counter while sharing the pending map.  Two sends through two
clones of a fresh link both allocate id 1; the second insert overwrites
the first caller's still-pending entry (it is abandoned *by* the reuse,
not before it), violating both "pairwise distinct" and the reuse
invariant. -/
theorem send_request_clone_id_collision :
    (((LspLinkState.new.clone_handle 0).clone_handle 0).send_request 1 100).1 = 1 ∧
    ((((LspLinkState.new.clone_handle 0).clone_handle 0).send_request 1 100).2.send_request 2 200).1 = 1 ∧
    lookupKey 1 ((((LspLinkState.new.clone_handle 0).clone_handle 0).send_request 1 100).2.send_request 2 200).2.response_handlers = some 200 := by
  decide

/-- C1, amended.  For every batch of N send_request calls through a single
`LspProcessConnection` handle of a fresh link, the allocated ids are
`1, …, N` — pairwise distinct (an id is never reused on one handle) — and
when the N responses arrive in any order, the read loop resolves each
response id with exactly the caller registered under that id: response `i`
resolves caller `callers[i-1]` and nobody else.  (Sends through *clones*
of the link are excluded: they can re-allocate a live id, see
`send_request_clone_id_collision`.) -/
theorem send_request_ids_distinct_and_routing_exact
    (callers order : List Nat)
    (hperm : order.Perm (List.range' 1 callers.length)) :
    (LspLinkState.new.send_many 0 callers).1 = List.range' 1 callers.length ∧
    (LspLinkState.new.send_many 0 callers).1.Nodup ∧
    ((LspLinkState.new.send_many 0 callers).2.deliver_all order).1
      = order.map (fun i => (i, callers.get? (i - 1))) := by
  have hrun := send_many_spec callers [] 1 (by intro p hp; cases hp)
  have hids : (LspLinkState.new.send_many 0 callers).1 = List.range' 1 callers.length := by
    rw [show LspLinkState.new = ⟨[], [1]⟩ from rfl, hrun]
  refine ⟨hids, ?_, ?_⟩
  · rw [hids]; exact List.nodup_range' _ _
  · have hst : (LspLinkState.new.send_many 0 callers).2.response_handlers
        = (List.range' 1 callers.length).zip callers := by
      rw [show LspLinkState.new = ⟨[], [1]⟩ from rfl, hrun]
      simp
    refine deliver_all_log order _ _ (hperm.nodup_iff.mpr (List.nodup_range' _ _)) ?_
    intro i hi
    have hmem : i ∈ List.range' 1 callers.length := hperm.mem_iff.mp hi
    have hrange := List.mem_range'_1.mp hmem
    rw [hst]
    exact lookup_zip_range' callers.length 1 i callers rfl hrange.1
      (by omega)

/-- Witness for `send_request_ids_distinct_and_routing_exact` at
`callers = [100, 200, 300]`, responses delivered in the order `2, 3, 1`. -/
theorem send_request_ids_distinct_and_routing_exact_witness :
    (LspLinkState.new.send_many 0 [100, 200, 300]).1 = List.range' 1 3 ∧
    (LspLinkState.new.send_many 0 [100, 200, 300]).1.Nodup ∧
    ((LspLinkState.new.send_many 0 [100, 200, 300]).2.deliver_all [2, 3, 1]).1
      = [2, 3, 1].map (fun i => (i, [100, 200, 300].get? (i - 1))) :=
  send_request_ids_distinct_and_routing_exact [100, 200, 300] [2, 3, 1] (by decide)

/-! ## The filesystem collaborator

`find_project_root`, `is_project_root` and the websocket language detection
consult the filesystem only through `Path::exists`, `Path::is_dir` and
`fs::read_dir`.  We model absolute paths as lists of components (so `[]` is
the filesystem root `/`, `Path::parent` is `dropLast`, and `parent` of the
root is `None`) and the filesystem as those three observations. -/

structure FS where
  /-- `Path::exists`. -/
  pathExists : List String → Bool
  /-- `Path::is_dir`. -/
  isDir : List String → Bool
  /-- `fs::read_dir`: the entry names of a directory, in iteration order. -/
  children : List String → List String

/-- Split a character list at `/`, keeping empty pieces (as `str::split`
would). -/
def splitSlash (cur : List Char) : List Char → List String
  | [] => [String.mk cur.reverse]
  | c :: rest =>
    if c = '/' then String.mk cur.reverse :: splitSlash [] rest
    else splitSlash (c :: cur) rest

/-- `Path::new(s)` for an absolute path string: its components. -/
def pathComponents (s : String) : List String :=
  (splitSlash [] s.data).filter (fun c => c ≠ "")

/-- `PathBuf::to_string_lossy` for an absolute path. -/
def renderPath (p : List String) : String :=
  "/" ++ String.intercalate "/" p

/-- ASCII lowercasing of one character. -/
def charToLower (c : Char) : Char :=
  if 'A' ≤ c ∧ c ≤ 'Z' then Char.ofNat (c.toNat + 32) else c

/-- `str::to_lowercase` (restricted to its ASCII action; every language
name the gateway compares is ASCII). -/
def rustToLower (s : String) : String :=
  String.mk (s.data.map charToLower)

/-! ## C2, C6 — the project-root resolver (`server_factory.rs:271-366`) -/

/-- The per-language marker-file table shared by `find_project_root`
(server_factory.rs:299-311) and `is_project_root` (379-391). -/
def config_files_for (language : String) : List String :=
  let l := rustToLower language
  if l = "rust" then ["Cargo.toml"]
  else if l = "javascript" ∨ l = "typescript" then ["package.json", "tsconfig.json"]
  else if l = "python" then ["pyproject.toml", "setup.py", "requirements.txt"]
  else if l = "go" then ["go.mod"]
  else if l = "c" ∨ l = "cpp" then ["CMakeLists.txt", "Makefile", "configure"]
  else if l = "java" then ["pom.xml", "build.gradle", "settings.gradle"]
  else ["Cargo.toml", "package.json", "pyproject.toml", "go.mod",
        "CMakeLists.txt", "Makefile", "pom.xml", "build.gradle"]

/-- The body of the marker test: some `config_file` of the list exists in
`dir` (server_factory.rs:327-334). -/
def hasMarker (fs : FS) (files : List String) (dir : List String) : Bool :=
  files.any (fun f => fs.pathExists (dir ++ [f]))

/-- The upward-walk loop of `find_project_root` (server_factory.rs:325-365).
`fuel = max_iterations - iterations` (the source counts `iterations` up
from 0 with `max_iterations = 10` and bails out once `iterations + 1 >= 10`
*after* testing the current directory, so the initial call has `fuel = 10`
and at most 10 directories are tested).  The `dropLast = current` test is
the source's `parent == current` cycle guard; `fuel = 0` is unreachable
from the initial call. -/
def walk_up (fs : FS) (files : List String) (start : List String) :
    Nat → List String → List String
  | fuel, current =>
    if hasMarker fs files current then current
    else
      match fuel, current with
      | 0, _ => start
      | 1, _ => start
      | _ + 2, [] => start
      | f + 2, c :: cs =>
        if (c :: cs).dropLast = c :: cs then start
        else walk_up fs files start (f + 1) (c :: cs).dropLast

/-- `ServerFactory::find_project_root` (server_factory.rs:271-366): fail if
the path does not exist; start from the path itself if it is a directory,
else from its parent (failing if it has none); walk upward looking for a
marker file, returning the start directory if none is found within the
bound. -/
def find_project_root (fs : FS) (language : String) (file_path : String) :
    Except String String :=
  if fs.pathExists (pathComponents file_path) = false then
    Except.error ("Podana ścieżka nie istnieje: " ++ file_path)
  else
    match fs.isDir (pathComponents file_path), pathComponents file_path with
    | true, path => Except.ok (renderPath (walk_up fs (config_files_for language) path 10 path))
    | false, [] => Except.error ("Nie można znaleźć katalogu nadrzędnego dla: " ++ file_path)
    | false, c :: cs =>
      Except.ok (renderPath
        (walk_up fs (config_files_for language) (c :: cs).dropLast 10 (c :: cs).dropLast))

/-- Modelled from the spec (§4.3): the starting directory of the walk —
"the path itself if it is a directory, else its parent". -/
def start_dir (fs : FS) (path : List String) : List String :=
  if fs.isDir path then path else path.dropLast

/-- Modelled from the spec (§4.3): the chain of ancestors of `p`,
innermost first, ending at the filesystem root `[]`. -/
def spec_ancestors (p : List String) : List (List String) :=
  (List.range (p.length + 1)).map (fun k => p.take (p.length - k))

/-- Modelled from the spec (§4.3, §8): the first of the at most ten
examined ancestors (starting directory included) containing a marker file,
defaulting to the starting directory. -/
def spec_project_root (fs : FS) (language : String) (start : List String) : List String :=
  (((spec_ancestors start).take 10).find? (hasMarker fs (config_files_for language))).getD start

theorem dropLast_take_eq (p : List α) : ∀ (m : Nat), m ≤ p.length - 1 →
    p.dropLast.take m = p.take m := by
  induction p with
  | nil => intro m _; rfl
  | cons c cs ih =>
    intro m hm
    match cs, m with
    | _, 0 => simp
    | [], m + 1 => simp at hm
    | d :: ds, m + 1 =>
      have : (c :: d :: ds).dropLast = c :: (d :: ds).dropLast := rfl
      rw [this, List.take_succ_cons, List.take_succ_cons,
        ih m (by simpa using Nat.le_of_succ_le_succ (by simpa using hm))]

theorem spec_ancestors_nil : spec_ancestors ([] : List String) = [[]] := rfl

theorem spec_ancestors_cons (p : List String) (hp : p ≠ []) :
    spec_ancestors p = p :: spec_ancestors p.dropLast := by
  obtain ⟨n, hn⟩ : ∃ n, p.length = n + 1 := by
    cases p with
    | nil => exact absurd rfl hp
    | cons a l => exact ⟨l.length, rfl⟩
  have hdl : p.dropLast.length = n := by
    simp [List.length_dropLast, hn]
  simp only [spec_ancestors, hn, hdl]
  rw [List.range_succ_eq_map]
  simp only [List.map_cons, List.map_map]
  refine congrArg₂ List.cons ?_ ?_
  · rw [Nat.sub_zero, ← hn]
    exact List.take_length p
  · refine List.map_congr_left ?_
    intro k _
    have h1 : n + 1 - (k + 1) = n - k := by omega
    simp only [Function.comp_apply, h1]
    exact (dropLast_take_eq p (n - k) (by omega)).symm

theorem walk_up_marker (fs : FS) (files start : List String) (fuel : Nat)
    (current : List String) (h : hasMarker fs files current = true) :
    walk_up fs files start fuel current = current := by
  rw [walk_up.eq_def]
  show (if hasMarker fs files current = true then current else _) = current
  rw [if_pos h]

theorem walk_up_fuel_one (fs : FS) (files start : List String)
    (current : List String) (h : hasMarker fs files current = false) :
    walk_up fs files start 1 current = start := by
  rw [walk_up.eq_def]
  show (if hasMarker fs files current = true then current else start) = start
  rw [if_neg (by simp [h])]

theorem walk_up_root (fs : FS) (files start : List String) (f : Nat)
    (h : hasMarker fs files [] = false) :
    walk_up fs files start (f + 2) [] = start := by
  rw [walk_up.eq_def]
  show (if hasMarker fs files [] = true then ([] : List String) else start) = start
  rw [if_neg (by simp [h])]

theorem walk_up_step (fs : FS) (files start : List String) (f : Nat)
    (c : String) (cs : List String) (h : hasMarker fs files (c :: cs) = false) :
    walk_up fs files start (f + 2) (c :: cs)
      = walk_up fs files start (f + 1) (c :: cs).dropLast := by
  have hne : ¬ ((c :: cs).dropLast = c :: cs) := by
    intro hcontra
    have := congrArg List.length hcontra
    simp [List.length_dropLast] at this
  rw [walk_up.eq_def]
  show (if hasMarker fs files (c :: cs) = true then c :: cs
    else if (c :: cs).dropLast = c :: cs then start
    else walk_up fs files start (f + 1) (c :: cs).dropLast)
      = walk_up fs files start (f + 1) (c :: cs).dropLast
  rw [if_neg (by simp [h]), if_neg hne]

theorem walk_up_eq_spec (fs : FS) (files : List String) (start : List String) :
    ∀ (fuel : Nat), 1 ≤ fuel → ∀ (p : List String),
    walk_up fs files start fuel p
      = (((spec_ancestors p).take fuel).find? (hasMarker fs files)).getD start := by
  intro fuel
  induction fuel using Nat.strong_induction_on with
  | _ fuel ih =>
    intro hfuel p
    obtain ⟨f, rfl⟩ : ∃ f, fuel = f + 1 := ⟨fuel - 1, by omega⟩
    match p with
    | [] =>
      rw [spec_ancestors_nil]
      cases hm : hasMarker fs files [] with
      | true =>
        rw [walk_up_marker fs files start (f + 1) [] hm, List.take_succ_cons,
          List.find?_cons_of_pos _ hm]
        rfl
      | false =>
        rw [List.take_succ_cons, List.find?_cons_of_neg _ (by simp [hm])]
        match f with
        | 0 => rw [walk_up_fuel_one fs files start [] hm]; rfl
        | g + 1 => rw [walk_up_root fs files start g hm]; rfl
    | c :: cs =>
      rw [spec_ancestors_cons (c :: cs) (by simp)]
      cases hm : hasMarker fs files (c :: cs) with
      | true =>
        rw [walk_up_marker fs files start (f + 1) (c :: cs) hm, List.take_succ_cons,
          List.find?_cons_of_pos _ hm]
        rfl
      | false =>
        rw [List.take_succ_cons, List.find?_cons_of_neg _ (by simp [hm])]
        match f with
        | 0 =>
          rw [walk_up_fuel_one fs files start (c :: cs) hm]
          simp
        | g + 1 =>
          rw [walk_up_step fs files start g c cs hm,
            ih (g + 1) (by omega) (by omega) (c :: cs).dropLast]

/-- C2: for every language and every existing path (on a filesystem whose
root is a directory), `find_project_root` succeeds and returns exactly the
first of the at most ten examined ancestor directories of the starting
point (the path itself if a directory, else its parent) that contains one
of the language's marker files, defaulting to the starting directory when
no marker is found within the bound — it never fails for an existing
path. -/
theorem find_project_root_ok (fs : FS) (language file_path : String)
    (hex : fs.pathExists (pathComponents file_path) = true)
    (hroot : fs.isDir [] = true) :
    find_project_root fs language file_path =
      Except.ok (renderPath (spec_project_root fs language
        (start_dir fs (pathComponents file_path)))) := by
  unfold find_project_root
  rw [hex, if_neg (show ¬ (true = false) by simp)]
  split
  · next hdir =>
    rw [spec_project_root, start_dir, if_pos hdir,
      walk_up_eq_spec fs (config_files_for language) _ 10 (by omega)]
  · next hdir hnil =>
    rw [← hnil] at hroot
    rw [hroot] at hdir
    cases hdir
  · next c cs hdir hcons =>
    rw [spec_project_root, start_dir, if_neg (by simp [hdir]), hcons,
      walk_up_eq_spec fs (config_files_for language) _ 10 (by omega)]

/-- A small concrete filesystem: a Rust project at `/home/user/proj` with a
`Cargo.toml` and a source file `/home/user/proj/src/main.rs`. -/
def fsExample : FS where
  pathExists := fun p => decide (p ∈ [([] : List String), ["home"], ["home", "user"],
    ["home", "user", "proj"], ["home", "user", "proj", "Cargo.toml"],
    ["home", "user", "proj", "src"], ["home", "user", "proj", "src", "main.rs"]])
  isDir := fun p => decide (p ∈ [([] : List String), ["home"], ["home", "user"],
    ["home", "user", "proj"], ["home", "user", "proj", "src"]])
  children := fun _ => []

/-- Witness for `find_project_root_ok`: resolving `main.rs` for `rust`
walks up from `/home/user/proj/src` and finds `/home/user/proj`. -/
theorem find_project_root_ok_witness :
    fsExample.pathExists (pathComponents "/home/user/proj/src/main.rs") = true ∧
    fsExample.isDir [] = true ∧
    find_project_root fsExample "rust" "/home/user/proj/src/main.rs" =
      Except.ok (renderPath (spec_project_root fsExample "rust"
        (start_dir fsExample (pathComponents "/home/user/proj/src/main.rs")))) :=
  ⟨by decide, by decide,
    find_project_root_ok fsExample "rust" "/home/user/proj/src/main.rs" (by decide) (by decide)⟩

/-! ## JSON values

`serde_json::Value`, with `get` as association-list lookup (`serde_json`
object keys are unique) and `as_object_mut().insert` replacing in
place. -/

inductive Json where
  | null
  | bool (b : Bool)
  | num (n : Int)
  | str (s : String)
  | arr (elems : List Json)
  | obj (fields : List (String × Json))

/-- `Value::get(key)` on an object. -/
def jGet (j : Json) (k : String) : Option Json :=
  match j with
  | Json.obj fields => lookupKey k fields
  | _ => none

/-- `Value::as_str`. -/
def jAsStr : Json → Option String
  | Json.str s => some s
  | _ => none

/-- `as_object_mut()` followed by `insert(k, v)`; leaves non-objects
unchanged (as the source's `if let Some(obj) = ... .as_object_mut()`
does). -/
def jSetField (j : Json) (k : String) (v : Json) : Json :=
  match j with
  | Json.obj fields => Json.obj (insertReplace k v fields)
  | other => other

/-- A JSON-RPC error response object, as built by `serde_json::json!` at
the error sites of `websocket.rs`. -/
def jsonError (id : Json) (code : Int) (message : String) : Json :=
  Json.obj [("jsonrpc", Json.str "2.0"), ("id", id),
    ("error", Json.obj [("code", Json.num code), ("message", Json.str message)])]

/-! ## C3, C6, C8, C9 — the server registry (`server_factory.rs`) -/

/-- `get_supported_languages` (mod.rs:30-32). -/
def get_supported_languages : List String := ["rust"]

/-- `ServerFactory` (server_factory.rs:44-48): the registry of live
adapters keyed by server id, plus the id counter.  An adapter value is
abstracted as a numeric token (its behaviour enters through the `handle`
oracle of `forward_request`); nothing in `RustLspAdapter::new` /
`RustLanguageServer::new` / `ServerConfig::new` can fail or spawn a
process (the analyzer is spawned only by the adapter's `initialize`). -/
structure ServerFactory where
  servers : List (String × Nat)
  next_id : Nat

/-- `ServerFactory::new`. -/
def ServerFactory.new : ServerFactory := ⟨[], 1⟩

/-- `impl Clone for ServerFactory` (websocket.rs:906-910): `Self::new()` —
the clone starts with an empty registry whatever the original held. -/
def ServerFactory.clone (_f : ServerFactory) : ServerFactory := ServerFactory.new

/-- `ServerFactory::create_server` (server_factory.rs:69-110).  Returns the
result, the new factory state, and the number of child processes spawned
during the call (always 0: adapter construction does not spawn).
`generate_server_id` increments `next_id` before any failure can occur. -/
def ServerFactory.create_server (fs : FS) (f : ServerFactory)
    (language file_path : String) : Except String String × ServerFactory × Nat :=
  let server_id := "server_" ++ toString f.next_id
  let f1 : ServerFactory := { f with next_id := f.next_id + 1 }
  let normalized := rustToLower language
  match find_project_root fs normalized file_path with
  | Except.error e => (Except.error e, f1, 0)
  | Except.ok _rootPath =>
    if normalized = "rust" then
      (Except.ok server_id, { f1 with servers := f1.servers ++ [(server_id, f.next_id)] }, 0)
    else if normalized = "typescript" ∨ normalized = "javascript" then
      (Except.error ("Adapter dla języka \x27" ++ normalized ++ "\x27 nie został jeszcze zaimplementowany"), f1, 0)
    else if normalized = "python" then
      (Except.error ("Adapter dla języka \x27" ++ normalized ++ "\x27 nie został jeszcze zaimplementowany"), f1, 0)
    else
      (Except.error ("Język \x27" ++ normalized ++ "\x27 nie jest obsługiwany. Brak serwera LSP dla tego języka."), f1, 0)

/-- `ServerFactory::stop_server` (server_factory.rs:113-128): remove the
registry entry first, then await the adapter's shutdown (whose outcome is
the `shutdownRes` argument) and propagate its error. -/
def ServerFactory.stop_server (f : ServerFactory) (shutdownRes : Except String Unit)
    (server_id : String) : Except String Unit × ServerFactory :=
  match lookupKey server_id f.servers with
  | some _ =>
    (match shutdownRes with
     | Except.ok _ => Except.ok ()
     | Except.error e => Except.error e,
     { f with servers := eraseKey server_id f.servers })
  | none => (Except.error ("Server not found: " ++ server_id), f)

/-- `ServerFactory::forward_request` (server_factory.rs:131-144): look up
the adapter token and delegate to its `handle_request` (the `handle`
oracle); fail if the id is absent.  The registry is not modified. -/
def ServerFactory.forward_request (handle : Nat → ρ → Except String ρ)
    (f : ServerFactory) (server_id : String) (request_text : ρ) : Except String ρ :=
  match lookupKey server_id f.servers with
  | some tok => handle tok request_text
  | none => Except.error ("Server not found: " ++ server_id)

/-! ## The WebSocket gateway's `initialize` handling (`websocket.rs`) -/

/-- `str::split` at a character test, keeping empty pieces. -/
def splitByPred (p : Char → Bool) (cur : List Char) : List Char → List String
  | [] => [String.mk cur.reverse]
  | c :: rest =>
    if p c then String.mk cur.reverse :: splitByPred p [] rest
    else splitByPred p (c :: cur) rest

/-- `str::trim_start_matches`: repeatedly strip the pattern from the
front. -/
def trimStartMatches (pat : List Char) (s : List Char) : List Char :=
  if h : pat ≠ [] ∧ pat.isPrefixOf s then
    trimStartMatches pat (s.drop pat.length)
  else s
termination_by s.length
decreasing_by
  have hlen : 1 ≤ pat.length := by
    cases hp : pat with
    | nil => exact absurd hp h.1
    | cons a l => simp
  have hpre : pat.length ≤ s.length :=
    List.IsPrefix.length_le (List.isPrefixOf_iff_prefix.mp h.2)
  simp only [List.length_drop]
  omega

/-- The directory-entry scan of `detect_language_from_file_extension`
(websocket.rs:847-862): the first entry whose name ends in a known source
extension decides the language. -/
def scan_entries : List String → Option String
  | [] => none
  | name :: rest =>
    if (".rs".data).isSuffixOf name.data then some "rust"
    else if (".py".data).isSuffixOf name.data then some "python"
    else if (".js".data).isSuffixOf name.data then some "javascript"
    else if (".ts".data).isSuffixOf name.data then some "typescript"
    else scan_entries rest

/-- The extension table of `detect_language_from_file_extension`
(websocket.rs:872-902). -/
def extension_language (ext : String) : Option String :=
  if ext = "rs" then some "rust"
  else if ext = "py" then some "python"
  else if ext = "js" then some "javascript"
  else if ext = "ts" then some "typescript"
  else if ext = "cpp" ∨ ext = "h" ∨ ext = "c" ∨ ext = "cc" ∨ ext = "hh" then some "cpp"
  else if ext = "java" then some "java"
  else if ext = "kt" then some "kotlin"
  else if ext = "go" then some "go"
  else if ext = "sh" then some "bash"
  else if ext = "md" then some "markdown"
  else if ext = "html" then some "html"
  else if ext = "css" then some "css"
  else if ext = "rb" then some "ruby"
  else if ext = "php" then some "php"
  else if ext = "sql" then some "sql"
  else if ext = "xml" then some "xml"
  else if ext = "json" then some "json"
  else if ext = "yaml" ∨ ext = "yml" then some "yaml"
  else if ext = "toml" then some "toml"
  else if ext = "ini" ∨ ext = "cfg" ∨ ext = "env" then some "ini"
  else if ext = "bat" then some "batch"
  else if ext = "ps1" ∨ ext = "psm1" ∨ ext = "psd1" then some "powershell"
  else none

/-- `WebSocketManager::detect_language_from_file_extension`
(websocket.rs:807-903): strip query parameters; for a directory, check
ecosystem manifest files then scan entries for source extensions; for a
file, map the extension (the piece after the last `.`) through the
table. -/
def detect_language_from_file_extension (fs : FS) (file_path : String) : Option String :=
  let clean_path := String.mk (file_path.data.takeWhile (fun c => c ≠ '?'))
  let p := pathComponents clean_path
  if fs.isDir p then
    if fs.pathExists (p ++ ["Cargo.toml"]) then some "rust"
    else if fs.pathExists (p ++ ["package.json"]) then
      if fs.pathExists (p ++ ["tsconfig.json"]) then some "typescript"
      else some "javascript"
    else if fs.pathExists (p ++ ["pyproject.toml"]) ∨ fs.pathExists (p ++ ["requirements.txt"]) then
      some "python"
    else scan_entries (fs.children p)
  else
    extension_language ((splitByPred (fun c => c = '.') [] clean_path.data).getLastD "")

/-- The `"initialize" if id.is_some()` arm of
`WebSocketManager::handle_message` (websocket.rs:301-531), for a request
whose `method` is `initialize` and that carries an `id`.  `handle` is the
behaviour of `ManagedLanguageServer::handle_request` of the adapters in
the registry (the requests forwarded to it are modelled by their parsed
JSON).  Returns the response message, the new registry state and the new
`active_server` of the connection. -/
def handle_initialize_message (fs : FS) (handle : Nat → Json → Except String Json)
    (factory : ServerFactory) (active_server : Option String)
    (json_rpc id : Json) (params : Option Json) :
    Json × ServerFactory × Option String :=
  match params with
  | none =>
    (jsonError id (-32602) "Invalid params: params is required for initialize",
     factory, active_server)
  | some params_value =>
    let file_path := String.mk (trimStartMatches "file://".data
      ((((jGet params_value "rootUri").bind jAsStr).getD "").data))
    let language := (((jGet params_value "initializationOptions").bind
      (fun io => jGet io "language")).bind jAsStr).getD "unknown"
    let final_language :=
      if language = "unknown" ∨ language = "" then
        match detect_language_from_file_extension fs file_path with
        | some detected => detected
        | none => language
      else language
    if get_supported_languages.contains final_language = false then
      (jsonError id (-32601) ("Język \x27" ++ final_language ++
         "\x27 nie jest obsługiwany. Aktualnie obsługiwane języki to: " ++
         String.intercalate ", " get_supported_languages),
       factory, active_server)
    else
      match find_project_root fs final_language file_path with
      | Except.ok correct_root_path =>
        let updated_params :=
          match jGet (jSetField (jSetField params_value "rootUri"
              (Json.str ("file://" ++ correct_root_path))) "rootPath"
              (Json.str correct_root_path)) "initializationOptions" with
          | none =>
            jSetField (jSetField (jSetField params_value "rootUri"
              (Json.str ("file://" ++ correct_root_path))) "rootPath"
              (Json.str correct_root_path)) "initializationOptions"
              (Json.obj [("language", Json.str final_language)])
          | some io =>
            jSetField (jSetField (jSetField params_value "rootUri"
              (Json.str ("file://" ++ correct_root_path))) "rootPath"
              (Json.str correct_root_path)) "initializationOptions"
              (jSetField io "language" (Json.str final_language))
        let server_path :=
          if fs.isDir (pathComponents file_path) then correct_root_path else file_path
        match ServerFactory.create_server fs factory final_language server_path with
        | (Except.ok server_id, f1, _) =>
          (match ServerFactory.forward_request handle f1 server_id
              (jSetField json_rpc "params" updated_params) with
           | Except.ok response_text => (response_text, f1, some server_id)
           | Except.error e =>
             (jsonError id (-32603) ("Błąd inicjalizacji serwera LSP: " ++ e),
              f1, some server_id))
        | (Except.error e, f1, _) =>
          (jsonError id (-32603) ("Błąd tworzenia serwera LSP: " ++ e), f1, active_server)
      | Except.error _ =>
        match ServerFactory.create_server fs factory final_language file_path with
        | (Except.ok server_id, f1, _) =>
          (match ServerFactory.forward_request handle f1 server_id json_rpc with
           | Except.ok response_text => (response_text, f1, some server_id)
           | Except.error e =>
             (jsonError id (-32603) ("Błąd inicjalizacji serwera LSP: " ++ e),
              f1, some server_id))
        | (Except.error e, f1, _) =>
          (jsonError id (-32603) ("Błąd tworzenia serwera LSP: " ++ e), f1, active_server)

/-- C3: a declared language that is not `unknown`/empty and not in the
supported list makes the gateway's `initialize` handling return a JSON-RPC
error with code -32601 whose message lists the supported languages, with
the registry and the connection's session untouched; and `create_server`
for a language outside the known adapter set returns the explicit
unsupported-language error without inserting any registry entry (only the
id counter, already incremented by `generate_server_id`, changes). -/
theorem unsupported_language_rejected
    (fs : FS) (handle : Nat → Json → Except String Json)
    (factory : ServerFactory) (active_server : Option String)
    (json_rpc id params_value : Json) (language : String)
    (hlang : (((jGet params_value "initializationOptions").bind
      (fun io => jGet io "language")).bind jAsStr) = some language)
    (hunk : language ≠ "unknown") (hne : language ≠ "")
    (hunsup : get_supported_languages.contains language = false)
    (f : ServerFactory) (path : String)
    (hexists : fs.pathExists (pathComponents path) = true)
    (hroot : fs.isDir [] = true)
    (hlow : rustToLower language ∉ ["rust", "typescript", "javascript", "python"]) :
    handle_initialize_message fs handle factory active_server json_rpc id (some params_value)
      = (jsonError id (-32601) ("Język \x27" ++ language ++
          "\x27 nie jest obsługiwany. Aktualnie obsługiwane języki to: " ++
          String.intercalate ", " get_supported_languages),
         factory, active_server) ∧
    ServerFactory.create_server fs f language path
      = (Except.error ("Język \x27" ++ rustToLower language ++
          "\x27 nie jest obsługiwany. Brak serwera LSP dla tego języka."),
         { f with next_id := f.next_id + 1 }, 0) := by
  constructor
  · have hcond : (language = "unknown" ∨ language = "") = False := by
      simp [hunk, hne]
    have hsup : (get_supported_languages.contains language = false) = True :=
      eq_true hunsup
    simp only [handle_initialize_message, hlang, Option.getD_some, hcond, if_false,
      hsup, if_true]
  · have h1 : rustToLower language ≠ "rust" := fun h => hlow (by rw [h]; simp)
    have h2 : rustToLower language ≠ "typescript" := fun h => hlow (by rw [h]; simp)
    have h3 : rustToLower language ≠ "javascript" := fun h => hlow (by rw [h]; simp)
    have h4 : rustToLower language ≠ "python" := fun h => hlow (by rw [h]; simp)
    have hfr := find_project_root_ok fs (rustToLower language) path hexists hroot
    simp only [ServerFactory.create_server, hfr]
    rw [if_neg h1, if_neg (not_or.mpr ⟨h2, h3⟩), if_neg h4]

/-- Witness for `unsupported_language_rejected`: an `initialize` for
declared language `cobol` against the example project. -/
theorem unsupported_language_rejected_witness :
    handle_initialize_message fsExample (fun _ j => Except.ok j)
        ServerFactory.new none Json.null (Json.num 1)
        (some (Json.obj [("rootUri", Json.str "file:///home/user/proj"),
          ("initializationOptions", Json.obj [("language", Json.str "cobol")])]))
      = (jsonError (Json.num 1) (-32601) ("Język \x27" ++ "cobol" ++
          "\x27 nie jest obsługiwany. Aktualnie obsługiwane języki to: " ++
          String.intercalate ", " get_supported_languages),
         ServerFactory.new, none) ∧
    ServerFactory.create_server fsExample ServerFactory.new "cobol" "/home/user/proj"
      = (Except.error ("Język \x27" ++ rustToLower "cobol" ++
          "\x27 nie jest obsługiwany. Brak serwera LSP dla tego języka."),
         { ServerFactory.new with next_id := ServerFactory.new.next_id + 1 }, 0) :=
  unsupported_language_rejected fsExample (fun _ j => Except.ok j)
    ServerFactory.new none Json.null (Json.num 1)
    (Json.obj [("rootUri", Json.str "file:///home/user/proj"),
      ("initializationOptions", Json.obj [("language", Json.str "cobol")])])
    "cobol" rfl (by decide) (by decide) (by decide)
    ServerFactory.new "/home/user/proj" (by decide) (by decide) (by decide)

/-- C6: for a path that does not exist, `find_project_root` fails with the
path-not-found error, and `create_server` fails with the same error while
inserting nothing into the registry and spawning no child process. -/
theorem missing_path_fails_without_spawn (fs : FS) (f : ServerFactory)
    (language file_path : String)
    (hex : fs.pathExists (pathComponents file_path) = false) :
    find_project_root fs language file_path
      = Except.error ("Podana ścieżka nie istnieje: " ++ file_path) ∧
    ServerFactory.create_server fs f language file_path
      = (Except.error ("Podana ścieżka nie istnieje: " ++ file_path),
         { f with next_id := f.next_id + 1 }, 0) := by
  have herr : ∀ lang2 : String, find_project_root fs lang2 file_path
      = Except.error ("Podana ścieżka nie istnieje: " ++ file_path) := by
    intro lang2
    unfold find_project_root
    rw [hex, if_pos rfl]
  refine ⟨herr language, ?_⟩
  simp only [ServerFactory.create_server, herr (rustToLower language)]

/-- Witness for `missing_path_fails_without_spawn` at the non-existent
path `/tmp/nope`. -/
theorem missing_path_fails_without_spawn_witness :
    find_project_root fsExample "rust" "/tmp/nope"
      = Except.error ("Podana ścieżka nie istnieje: " ++ "/tmp/nope") ∧
    ServerFactory.create_server fsExample ServerFactory.new "rust" "/tmp/nope"
      = (Except.error ("Podana ścieżka nie istnieje: " ++ "/tmp/nope"),
         { ServerFactory.new with next_id := ServerFactory.new.next_id + 1 }, 0) :=
  missing_path_fails_without_spawn fsExample ServerFactory.new "rust" "/tmp/nope" (by decide)

/-- C8: cloning a `ServerFactory` yields a factory whose registry is empty
whatever the original held, so `forward_request` and `stop_server` on the
clone fail with the server-not-found error for every server id — registries
are never shared across clones. -/
theorem clone_registry_empty (f : ServerFactory) :
    f.clone.servers = [] ∧
    (∀ (ρ' : Type) (handle : Nat → ρ' → Except String ρ') (sid : String) (req : ρ'),
      ServerFactory.forward_request handle f.clone sid req
        = Except.error ("Server not found: " ++ sid)) ∧
    (∀ (sd : Except String Unit) (sid : String),
      ServerFactory.stop_server f.clone sd sid
        = (Except.error ("Server not found: " ++ sid), f.clone)) :=
  ⟨rfl, fun _ _ _ _ => rfl, fun _ _ => rfl⟩

theorem lookupKey_eq_none [DecidableEq κ] (k : κ) (l : List (κ × ν))
    (h : ∀ p ∈ l, p.1 ≠ k) : lookupKey k l = none := by
  induction l with
  | nil => rfl
  | cons p t ih =>
    obtain ⟨k', v'⟩ := p
    simp only [lookupKey, if_neg (h (k', v') (List.mem_cons_self _ _))]
    exact ih (fun q hq => h q (List.mem_cons_of_mem _ hq))

theorem lookupKey_eraseKey_self [DecidableEq κ] (k : κ) (l : List (κ × ν))
    (h : (l.map Prod.fst).Nodup) : lookupKey k (eraseKey k l) = none := by
  induction l with
  | nil => rfl
  | cons p t ih =>
    obtain ⟨k', v'⟩ := p
    simp only [List.map_cons, List.nodup_cons] at h
    by_cases hk : k' = k
    · subst hk
      simp only [eraseKey, if_pos rfl]
      refine lookupKey_eq_none k' t ?_
      intro q hq hqk
      exact h.1 (hqk ▸ List.mem_map_of_mem Prod.fst hq)
    · simp only [eraseKey, if_neg hk, lookupKey, if_neg hk]
      exact ih h.2

/-- C9: `stop_server` removes the registry entry before awaiting the
adapter's shutdown: whether shutdown succeeded or failed, the id is gone
afterwards (the state is not restored on shutdown error, whose error is
propagated), and a second `stop_server` with the same id fails with the
server-not-found error, leaving the state unchanged. -/
theorem stop_server_removes_entry_first (f : ServerFactory) (sid : String) (tok : Nat)
    (hnd : (f.servers.map Prod.fst).Nodup)
    (hin : lookupKey sid f.servers = some tok)
    (sd sd2 : Except String Unit) :
    lookupKey sid (f.stop_server sd sid).2.servers = none ∧
    (f.stop_server sd sid).2.servers = eraseKey sid f.servers ∧
    ((f.stop_server sd sid).1 = match sd with
      | Except.ok _ => Except.ok ()
      | Except.error e => Except.error e) ∧
    (f.stop_server sd sid).2.stop_server sd2 sid
      = (Except.error ("Server not found: " ++ sid), (f.stop_server sd sid).2) := by
  have hgone : lookupKey sid (eraseKey sid f.servers) = none :=
    lookupKey_eraseKey_self sid f.servers hnd
  refine ⟨?_, ?_, ?_, ?_⟩ <;>
    simp [ServerFactory.stop_server, hin, hgone]

/-! ## C4 — the adapter's document tables (`servers/rust.rs`)

`RustLanguageServer` holds `document_data : DashMap<String, DocumentData>`
and the legacy `document_states : DashMap<String, String>`.  The
`did_open`/`did_change`/`did_close` notification handlers update the two
maps synchronously and then forward a notification to the child process (a
write that does not touch the maps, so it is not modelled). -/

/-- `DocumentData` (rust.rs:27-32). -/
structure DocumentData where
  content : String
  diagnostics : List Json

/-- The two document maps of `RustLanguageServer` (rust.rs:40,43). -/
structure DocStore where
  document_data : List (String × DocumentData)
  document_states : List (String × String)

/-- `RustLanguageServer::did_open` (rust.rs:386-406): store the document
text under its URI in both maps (diagnostics start empty). -/
def DocStore.did_open (st : DocStore) (uri text : String) : DocStore :=
  { document_data := insertReplace uri ⟨text, []⟩ st.document_data,
    document_states := insertReplace uri text st.document_states }

/-- `RustLanguageServer::did_change` (rust.rs:408-448): with a non-empty
change list, replace the stored content with the text of the *last* change
(full-document sync), keeping existing diagnostics (or inserting a fresh
entry when the URI is unknown); an empty change list leaves the maps
untouched. -/
def DocStore.did_change (st : DocStore) (uri : String) (content_changes : List String) :
    DocStore :=
  match content_changes.getLast? with
  | none => st
  | some new_text =>
    { document_data :=
        match lookupKey uri st.document_data with
        | some old => insertReplace uri ⟨new_text, old.diagnostics⟩ st.document_data
        | none => insertReplace uri ⟨new_text, []⟩ st.document_data,
      document_states := insertReplace uri new_text st.document_states }

/-- `RustLanguageServer::did_close` (rust.rs:457-472): remove the URI from
both maps. -/
def DocStore.did_close (st : DocStore) (uri : String) : DocStore :=
  { document_data := eraseKey uri st.document_data,
    document_states := eraseKey uri st.document_states }

theorem lookupKey_insertReplace_self [DecidableEq κ] (k : κ) (v : ν) (l : List (κ × ν)) :
    lookupKey k (insertReplace k v l) = some v := by
  induction l with
  | nil => simp [insertReplace, lookupKey]
  | cons p t ih =>
    obtain ⟨k', v'⟩ := p
    by_cases hk : k' = k
    · subst hk
      simp [insertReplace, lookupKey]
    · simp [insertReplace, hk, lookupKey, ih]

theorem mem_keys_insertReplace [DecidableEq κ] (x k : κ) (v : ν) (l : List (κ × ν))
    (h : x ∈ (insertReplace k v l).map Prod.fst) : x ∈ l.map Prod.fst ∨ x = k := by
  induction l with
  | nil =>
    simp only [insertReplace, List.map_cons, List.map_nil, List.mem_singleton] at h
    exact Or.inr h
  | cons p t ih =>
    obtain ⟨k', v'⟩ := p
    by_cases hk : k' = k
    · subst hk
      have hins : insertReplace k' v ((k', v') :: t) = (k', v) :: t := by
        simp [insertReplace]
      rw [hins] at h
      simp only [List.map_cons, List.mem_cons] at h
      rcases h with h | h
      · exact Or.inr h
      · exact Or.inl (by simp only [List.map_cons, List.mem_cons]; exact Or.inr h)
    · have hins : insertReplace k v ((k', v') :: t) = (k', v') :: insertReplace k v t := by
        simp [insertReplace, hk]
      rw [hins] at h
      simp only [List.map_cons, List.mem_cons] at h
      rcases h with h | h
      · exact Or.inl (by simp only [List.map_cons, List.mem_cons]; exact Or.inl h)
      · rcases ih h with h2 | h2
        · exact Or.inl (by simp only [List.map_cons, List.mem_cons]; exact Or.inr h2)
        · exact Or.inr h2

theorem keys_nodup_insertReplace [DecidableEq κ] (k : κ) (v : ν) (l : List (κ × ν))
    (h : (l.map Prod.fst).Nodup) : ((insertReplace k v l).map Prod.fst).Nodup := by
  induction l with
  | nil => simp [insertReplace]
  | cons p t ih =>
    obtain ⟨k', v'⟩ := p
    simp only [List.map_cons, List.nodup_cons] at h
    by_cases hk : k' = k
    · subst hk
      have hins : insertReplace k' v ((k', v') :: t) = (k', v) :: t := by
        simp [insertReplace]
      rw [hins]
      simp only [List.map_cons, List.nodup_cons]
      exact ⟨h.1, h.2⟩
    · have hins : insertReplace k v ((k', v') :: t) = (k', v') :: insertReplace k v t := by
        simp [insertReplace, hk]
      rw [hins]
      simp only [List.map_cons, List.nodup_cons]
      refine ⟨?_, ih h.2⟩
      intro hmem
      rcases mem_keys_insertReplace k' k v t hmem with h2 | h2
      · exact h.1 h2
      · exact hk h2

/-- C4: after `did_open(U, T)` the stored content for `U` is `T`; after a
subsequent `did_change(U, changes)` with a non-empty change list whose last
entry is `T2`, the stored content for `U` is `T2`; and after
`did_close(U)` no document entry for `U` remains (assuming the map keys
are unique, as they are for a `DashMap`). -/
theorem document_lifecycle (st : DocStore) (uri text t2 : String)
    (changes : List String)
    (hnd : (st.document_data.map Prod.fst).Nodup)
    (hlast : changes.getLast? = some t2) :
    (lookupKey uri (st.did_open uri text).document_data).map DocumentData.content
      = some text ∧
    (lookupKey uri ((st.did_open uri text).did_change uri changes).document_data).map
      DocumentData.content = some t2 ∧
    lookupKey uri (((st.did_open uri text).did_change uri changes).did_close uri).document_data
      = none := by
  have h1 : lookupKey uri (st.did_open uri text).document_data
      = some (DocumentData.mk text []) := by
    simp only [DocStore.did_open]
    exact lookupKey_insertReplace_self uri (DocumentData.mk text []) st.document_data
  have hnd1 : ((st.did_open uri text).document_data.map Prod.fst).Nodup := by
    simp only [DocStore.did_open]
    exact keys_nodup_insertReplace uri (DocumentData.mk text []) st.document_data hnd
  have h2 : lookupKey uri ((st.did_open uri text).did_change uri changes).document_data
      = some (DocumentData.mk t2 []) := by
    simp only [DocStore.did_change, hlast, h1]
    exact lookupKey_insertReplace_self uri (DocumentData.mk t2 []) _
  have hnd2 : (((st.did_open uri text).did_change uri changes).document_data.map
      Prod.fst).Nodup := by
    simp only [DocStore.did_change, hlast, h1]
    exact keys_nodup_insertReplace uri (DocumentData.mk t2 []) _ hnd1
  refine ⟨by simp [h1], by simp [h2], ?_⟩
  simp only [DocStore.did_close]
  exact lookupKey_eraseKey_self uri _ hnd2

/-- Witness for `document_lifecycle`: open, change `[..., "v2"]`, close on
an empty store. -/
theorem document_lifecycle_witness :
    (lookupKey "file:///a.rs" ((DocStore.mk [] []).did_open "file:///a.rs" "v0").document_data).map
      DocumentData.content = some "v0" ∧
    (lookupKey "file:///a.rs" (((DocStore.mk [] []).did_open "file:///a.rs" "v0").did_change
      "file:///a.rs" ["v1", "v2"]).document_data).map DocumentData.content = some "v2" ∧
    lookupKey "file:///a.rs" ((((DocStore.mk [] []).did_open "file:///a.rs" "v0").did_change
      "file:///a.rs" ["v1", "v2"]).did_close "file:///a.rs").document_data = none :=
  document_lifecycle (DocStore.mk [] []) "file:///a.rs" "v0" "v2" ["v1", "v2"]
    (by decide) (by decide)

/-! ## C5 — null results from the child process (`servers/rust.rs`)

`serde`'s `Option<Value>` deserializes both an absent `result` field and a
JSON `null` result to `None`, so a `JsonRpcResponse` whose `result` is
`none` models a response carrying a null or absent result. -/

/-- `JsonRpcResponse` (protocol.rs:24-32), after deserialization. -/
structure JsonRpcResponse where
  id : Json
  result : Option Json
  error : Option (Int × String)

/-- `RustLanguageServer::send_request` (rust.rs:242-259).  `link` is the
outcome of `LspProcessConnection::send_request` on the cloned connection
(response, or a link-level failure such as a missing connection). -/
def RustLanguageServer.send_request (link : Except String JsonRpcResponse) :
    Except String Json :=
  match link with
  | Except.error e => Except.error e
  | Except.ok resp =>
    match resp.error with
    | some err =>
      Except.error ("LSP error: " ++ err.2 ++ " (code: " ++ toString err.1 ++ ")")
    | none =>
      match resp.result with
      | some result => Except.ok result
      | none => Except.error "Empty response from LSP server"

/-- `Value::is_null`. -/
def Json.isNull : Json → Bool
  | Json.null => true
  | _ => false

/-- `RustLanguageServer::hover` (rust.rs:492-513): a null result or any
`send_request` failure yields `Ok(None)`; a parse failure of the payload
also yields `Ok(None)`. -/
def RustLanguageServer.hover (link : Except String JsonRpcResponse)
    (parse : Json → Option α) : Except String (Option α) :=
  Except.ok (match RustLanguageServer.send_request link with
  | Except.ok result =>
    if result.isNull then none
    else match parse result with
      | some h => some h
      | none => none
  | Except.error _ => none)

/-- `RustLanguageServer::goto_definition` (rust.rs:515-536): same shape as
`hover`. -/
def RustLanguageServer.goto_definition (link : Except String JsonRpcResponse)
    (parse : Json → Option α) : Except String (Option α) :=
  Except.ok (match RustLanguageServer.send_request link with
  | Except.ok result =>
    if result.isNull then none
    else match parse result with
      | some d => some d
      | none => none
  | Except.error _ => none)

/-- `RustLanguageServer::references` (rust.rs:538-559): same shape as
`hover`. -/
def RustLanguageServer.references (link : Except String JsonRpcResponse)
    (parse : Json → Option α) : Except String (Option α) :=
  Except.ok (match RustLanguageServer.send_request link with
  | Except.ok result =>
    if result.isNull then none
    else match parse result with
      | some r => some r
      | none => none
  | Except.error _ => none)

/-- `RustLanguageServer::formatting` (rust.rs:561-582): same shape as
`hover`. -/
def RustLanguageServer.formatting (link : Except String JsonRpcResponse)
    (parse : Json → Option α) : Except String (Option α) :=
  Except.ok (match RustLanguageServer.send_request link with
  | Except.ok result =>
    if result.isNull then none
    else match parse result with
      | some f => some f
      | none => none
  | Except.error _ => none)

/-- `RustLanguageServer::completion` (rust.rs:474-490): no explicit null
check; a null result makes `send_request` fail with "Empty response", and
any failure or parse failure yields `Ok(None)`. -/
def RustLanguageServer.completion (link : Except String JsonRpcResponse)
    (parse : Json → Option α) : Except String (Option α) :=
  Except.ok (match RustLanguageServer.send_request link with
  | Except.ok result =>
    match parse result with
    | some c => some c
    | none => none
  | Except.error _ => none)

/-- The completion-result assembly of `RustLspAdapter::handle_request`
(server_factory.rs:561-582): `None` becomes the empty completion list at
the JSON-RPC layer; `ser` is `serde_json::to_value`. -/
def RustLspAdapter.completion_result (ser : α → Except String Json) (c : Option α) : Json :=
  match c with
  | some completion =>
    match ser completion with
    | Except.ok completion_json => completion_json
    | Except.error _ => Json.obj [("isIncomplete", Json.bool true), ("items", Json.arr [])]
  | none => Json.obj [("isIncomplete", Json.bool false), ("items", Json.arr [])]

/-- C5: a child-process response carrying a null (or absent) result and no
error makes `hover`, `goto_definition`, `references`, `formatting` and
`completion` all return `Ok(None)` — never an error — and at the adapter's
JSON-RPC layer the `None` completion becomes the empty completion list. -/
theorem null_results_are_empty_not_error (α : Type) (resp : JsonRpcResponse)
    (parseH parseD parseR parseF parseC : Json → Option α)
    (ser : α → Except String Json)
    (hres : resp.result = none) (herr : resp.error = none) :
    RustLanguageServer.hover (Except.ok resp) parseH = Except.ok none ∧
    RustLanguageServer.goto_definition (Except.ok resp) parseD = Except.ok none ∧
    RustLanguageServer.references (Except.ok resp) parseR = Except.ok none ∧
    RustLanguageServer.formatting (Except.ok resp) parseF = Except.ok none ∧
    RustLanguageServer.completion (Except.ok resp) parseC = Except.ok none ∧
    RustLspAdapter.completion_result ser
        (match RustLanguageServer.completion (Except.ok resp) parseC with
         | Except.ok c => c
         | Except.error _ => none)
      = Json.obj [("isIncomplete", Json.bool false), ("items", Json.arr [])] := by
  have hsend : RustLanguageServer.send_request (Except.ok resp)
      = Except.error "Empty response from LSP server" := by
    simp [RustLanguageServer.send_request, hres, herr]
  refine ⟨?_, ?_, ?_, ?_, ?_, ?_⟩ <;>
    simp [RustLanguageServer.hover, RustLanguageServer.goto_definition,
      RustLanguageServer.references, RustLanguageServer.formatting,
      RustLanguageServer.completion, RustLspAdapter.completion_result, hsend]

/-- Witness for `null_results_are_empty_not_error`: the response
`{"jsonrpc":"2.0","id":7,"result":null}`. -/
theorem null_results_are_empty_not_error_witness :
    RustLanguageServer.hover (α := Unit) (Except.ok ⟨Json.num 7, none, none⟩)
      (fun _ => none) = Except.ok none ∧
    RustLanguageServer.goto_definition (α := Unit) (Except.ok ⟨Json.num 7, none, none⟩)
      (fun _ => none) = Except.ok none ∧
    RustLanguageServer.references (α := Unit) (Except.ok ⟨Json.num 7, none, none⟩)
      (fun _ => none) = Except.ok none ∧
    RustLanguageServer.formatting (α := Unit) (Except.ok ⟨Json.num 7, none, none⟩)
      (fun _ => none) = Except.ok none ∧
    RustLanguageServer.completion (α := Unit) (Except.ok ⟨Json.num 7, none, none⟩)
      (fun _ => none) = Except.ok none ∧
    RustLspAdapter.completion_result (fun (_ : Unit) => Except.ok Json.null)
        (match RustLanguageServer.completion (α := Unit) (Except.ok ⟨Json.num 7, none, none⟩)
            (fun _ => none) with
         | Except.ok c => c
         | Except.error _ => none)
      = Json.obj [("isIncomplete", Json.bool false), ("items", Json.arr [])] :=
  null_results_are_empty_not_error Unit ⟨Json.num 7, none, none⟩
    (fun _ => none) (fun _ => none) (fun _ => none) (fun _ => none) (fun _ => none)
    (fun _ => Except.ok Json.null) rfl rfl

/-! ## C7 — the gateway lifecycle (`mod.rs:383-459`) -/

/-- The process-wide lifecycle state: the `WS_SERVER_RUNNING` flag
(mod.rs:19). -/
structure WsGlobal where
  ws_server_running : Bool

/-- What a `start_lsp_websocket_server` call produced: its `Ok` message
and whether it spawned the listener thread (the only path that binds a
listener). -/
structure StartOutcome where
  message : String
  spawned_listener : Bool

/-- `start_lsp_websocket_server` (mod.rs:383-459): if the running flag is
set, report success at once; otherwise probe the port with a test bind —
if occupied, set the flag and report success without binding; if free,
spawn the listener thread (which sets the flag and serves).  `port_free`
is the outcome of the `TcpListener::bind` probe.  Every path returns
`Ok`. -/
def start_lsp_websocket_server (st : WsGlobal) (port : Nat) (port_free : Bool) :
    Except String StartOutcome × WsGlobal :=
  if st.ws_server_running then
    (Except.ok ⟨"LSP WebSocket server already running on port " ++ toString port, false⟩, st)
  else if port_free = false then
    (Except.ok ⟨"LSP WebSocket server is already running on port " ++ toString port, false⟩,
     ⟨true⟩)
  else
    (Except.ok ⟨"Starting LSP WebSocket server on port " ++ toString port ++
        " (or next available)", true⟩,
     ⟨true⟩)

/-- C7: starting the gateway is idempotent — with the running flag set, a
start request returns success without touching the state or creating a
listener; with the preferred port occupied at probe time, it marks the
gateway running and returns success without binding; and a second start
after any first start reports success without creating a second
listener. -/
theorem start_ws_idempotent (st : WsGlobal) (port : Nat) (pf pf2 : Bool) :
    (st.ws_server_running = true →
      start_lsp_websocket_server st port pf
        = (Except.ok ⟨"LSP WebSocket server already running on port " ++ toString port,
            false⟩, st)) ∧
    (st.ws_server_running = false → pf = false →
      start_lsp_websocket_server st port pf
        = (Except.ok ⟨"LSP WebSocket server is already running on port " ++ toString port,
            false⟩, ⟨true⟩)) ∧
    start_lsp_websocket_server (start_lsp_websocket_server st port pf).2 port pf2
      = (Except.ok ⟨"LSP WebSocket server already running on port " ++ toString port,
          false⟩, (start_lsp_websocket_server st port pf).2) := by
  refine ⟨fun h => by simp [start_lsp_websocket_server, h], fun h hp => by
    simp [start_lsp_websocket_server, h, hp], ?_⟩
  cases hr : st.ws_server_running <;> cases hpf : pf <;>
    simp [start_lsp_websocket_server, hr, hpf]

/-- Witness for `start_ws_idempotent` at both scenarios: flag already set
(port 3000, free port), and flag clear with the port occupied. -/
theorem start_ws_idempotent_witness :
    (WsGlobal.mk true).ws_server_running = true ∧
    start_lsp_websocket_server ⟨true⟩ 3000 true
      = (Except.ok ⟨"LSP WebSocket server already running on port " ++ toString 3000,
          false⟩, ⟨true⟩) ∧
    (WsGlobal.mk false).ws_server_running = false ∧
    start_lsp_websocket_server ⟨false⟩ 3000 false
      = (Except.ok ⟨"LSP WebSocket server is already running on port " ++ toString 3000,
          false⟩, ⟨true⟩) :=
  ⟨rfl, (start_ws_idempotent ⟨true⟩ 3000 true true).1 rfl, rfl,
    (start_ws_idempotent ⟨false⟩ 3000 false true).2.1 rfl rfl⟩

/-- Witness for `stop_server_removes_entry_first`: a one-entry registry, a
failing shutdown, then a second stop of the same id. -/
theorem stop_server_removes_entry_first_witness :
    lookupKey "server_1" ((ServerFactory.mk [("server_1", 1)] 2).stop_server
      (Except.error "shutdown failed") "server_1").2.servers = none ∧
    ((ServerFactory.mk [("server_1", 1)] 2).stop_server
      (Except.error "shutdown failed") "server_1").2.servers
      = eraseKey "server_1" (ServerFactory.mk [("server_1", 1)] 2).servers ∧
    (((ServerFactory.mk [("server_1", 1)] 2).stop_server
      (Except.error "shutdown failed") "server_1").1
      = match (Except.error "shutdown failed" : Except String Unit) with
        | Except.ok _ => Except.ok ()
        | Except.error e => Except.error e) ∧
    ((ServerFactory.mk [("server_1", 1)] 2).stop_server
      (Except.error "shutdown failed") "server_1").2.stop_server (Except.ok ()) "server_1"
      = (Except.error ("Server not found: " ++ "server_1"),
         ((ServerFactory.mk [("server_1", 1)] 2).stop_server
           (Except.error "shutdown failed") "server_1").2) :=
  stop_server_removes_entry_first (ServerFactory.mk [("server_1", 1)] 2) "server_1" 1
    (by decide) (by decide) (Except.error "shutdown failed") (Except.ok ())

/-! ## C10 — the hover formatter (`mod.rs:68-289`)

`format_hover_data` and `sanitize_markdown` are pure string transforms;
Rust `String`s are modelled as `List Char` (one element per Unicode
scalar, with `Char.utf8Size` giving each scalar's UTF-8 byte width).
`sanitize_markdown`'s first pass walks the string by *byte* index `i`,
advancing `i += 1` past any character that is not `*`; `&result[i..]`
panics when `i` is not a character boundary, which happens exactly when
the previous character occupies more than one byte.  A panic is modelled
as `none`. -/

/-- Whitespace as `char::is_whitespace` decides it on ASCII
(`\t \n \x0B \x0C \r ' '`; the non-ASCII Unicode whitespace characters
are not modelled). -/
def rustIsWhitespace (c : Char) : Bool :=
  c == ' ' || c == '\t' || c == '\n' || c == '\r' || c.toNat == 11 || c.toNat == 12

/-- `str::trim`. -/
def rustTrim (l : List Char) : List Char :=
  ((l.dropWhile rustIsWhitespace).reverse.dropWhile rustIsWhitespace).reverse

/-- `str::split` at a character test, producing character-list pieces and
keeping empty pieces. -/
def splitChars (p : Char → Bool) (cur : List Char) : List Char → List (List Char)
  | [] => [cur.reverse]
  | c :: rest =>
    if p c then cur.reverse :: splitChars p [] rest
    else splitChars p (c :: cur) rest

/-- `str::lines`: split at `\n`, drop the optional final line ending, and
strip a trailing `\r` from each line. -/
def rustLines (s : List Char) : List (List Char) :=
  if s = [] then []
  else
    let parts := splitChars (fun c => c = '\n') [] s
    let parts2 := if s.getLast? = some '\n' then parts.dropLast else parts
    parts2.map (fun l => if l.getLast? = some '\r' then l.dropLast else l)

/-- `str::contains` for a substring pattern. -/
def containsSub (pat : List Char) : List Char → Bool
  | [] => pat.isEmpty
  | c :: rest => pat.isPrefixOf (c :: rest) || containsSub pat rest

/-- `str::split` for a substring pattern: leftmost, non-overlapping.  The
fuel starts at the string length and never runs out on those calls. -/
def splitOnSubFuel (pat : List Char) : Nat → List Char → List (List Char)
  | _, [] => [[]]
  | 0, s => [s]
  | fuel + 1, c :: rest =>
    if pat ≠ [] ∧ pat.isPrefixOf (c :: rest) then
      [] :: splitOnSubFuel pat fuel ((c :: rest).drop pat.length)
    else
      match splitOnSubFuel pat fuel rest with
      | [] => [[c]]
      | piece :: more => (c :: piece) :: more

/-- `str::split` for a substring pattern. -/
def splitOnSub (pat s : List Char) : List (List Char) :=
  splitOnSubFuel pat s.length s

/-- `str::replace`: leftmost, non-overlapping.  The fuel starts at the
string length and never runs out on those calls. -/
def replaceSubFuel (pat repl : List Char) : Nat → List Char → List Char
  | _, [] => []
  | 0, s => s
  | fuel + 1, c :: rest =>
    if pat ≠ [] ∧ pat.isPrefixOf (c :: rest) then
      repl ++ replaceSubFuel pat repl fuel ((c :: rest).drop pat.length)
    else
      c :: replaceSubFuel pat repl fuel rest

/-- `str::replace`. -/
def replaceSub (pat repl s : List Char) : List Char :=
  replaceSubFuel pat repl s.length s

/-- `str::split_whitespace`: whitespace-separated pieces, empties
dropped. -/
def splitWhitespace (l : List Char) : List (List Char) :=
  (splitChars rustIsWhitespace [] l).filter (fun s => s ≠ [])

/-- The UTF-8 byte length of a string (`str::len`). -/
def utf8Len (l : List Char) : Nat :=
  (l.map Char.utf8Size).sum

/-- The byte-indexed `*`-escaping loop of `sanitize_markdown`
(mod.rs:229-243).  At a character boundary: `**` is skipped whole; a lone
`*` is replaced by `\*` and the cursor moves past the replacement; any
other character is stepped over with `i += 1`, so if it occupies more than
one byte the next `&result[i..]` indexes into the middle of it and the
call panics (`none`). -/
def starLoop : List Char → Option (List Char)
  | [] => some []
  | '*' :: '*' :: rest => (starLoop rest).map (fun r => '*' :: '*' :: r)
  | '*' :: rest => (starLoop rest).map (fun r => '\\' :: '*' :: r)
  | c :: rest =>
    if c.utf8Size = 1 then (starLoop rest).map (fun r => c :: r)
    else none

/-- The backtick pass of `sanitize_markdown` (mod.rs:252-281): characters
are buffered while inside an inline-code span and flushed on the closing
backtick (or at the end of the string), others are emitted directly. -/
def backtickGo (inside : Bool) (preserving current : List Char) : List Char → List Char
  | [] => preserving ++ current
  | c :: rest =>
    if c = Char.ofNat 96 then
      if !inside then backtickGo true preserving (current ++ [c]) rest
      else backtickGo false (preserving ++ current ++ [c]) [] rest
    else if inside then backtickGo inside preserving (current ++ [c]) rest
    else backtickGo inside (preserving ++ [c]) current rest

def backtickPass (l : List Char) : List Char :=
  backtickGo false [] [] l

/-- `sanitize_markdown` (mod.rs:224-289): escape lone `*`, then `_` and
`##`/`###`, run the backtick-preserving pass, and collapse doubled
escapes.  `none` models the byte-boundary panic of the `*` loop. -/
def sanitize_markdown (text : List Char) : Option (List Char) :=
  match starLoop text with
  | none => none
  | some escaped =>
    let r1 := replaceSub ("_".data) ("\\_".data) escaped
    let r2 := replaceSub ("##".data) ("\\##".data) r1
    let r3 := replaceSub ("###".data) ("\\###".data) r2
    let preserving := backtickPass r3
    let f1 := replaceSub ("\\\\*".data) ("\\*".data) preserving
    let f2 := replaceSub ("\\\\_".data) ("\\_".data) f1
    let f3 := replaceSub ("\\\\#".data) ("\\#".data) f2
    some f3

/-- `FormattedHoverData` (mod.rs:55-62). -/
structure FormattedHoverData where
  title : List Char
  signature : Option (List Char)
  documentation : Option (List Char)
  source_code : Option (List Char)
  raw : List Char

/-- The language identifiers recognized at mod.rs:96-97 and 120-121. -/
def lang_tokens : List (List Char) :=
  ["rust".data, "ts".data, "js".data, "typescript".data, "javascript".data]

/-- The per-line scanning state of `format_hover_data`'s loop
(mod.rs:104-151). -/
structure HoverScanState where
  in_code_block : Bool
  code_lines : List (List Char)
  doc_lines : List (List Char)
  possible_signature_found : Bool
  signature : Option (List Char)

/-- One iteration of `format_hover_data`'s line loop (mod.rs:109-151):
toggle code fences, collect code lines (skipping a leading language
identifier), detect a likely signature line, and otherwise sanitize the
line into the documentation (where `sanitize_markdown` may panic). -/
def hover_scan_line (st : HoverScanState) (line : List Char) : Option HoverScanState :=
  let line_str := rustTrim line
  if ("```".data).isPrefixOf line_str then
    some { st with in_code_block := !st.in_code_block }
  else if st.in_code_block then
    if st.code_lines = [] ∧ lang_tokens.contains line_str then some st
    else some { st with code_lines := st.code_lines ++ [line_str] }
  else if line_str = [] then some st
  else
    if !st.possible_signature_found &&
       (containsSub ("fn ".data) line_str || containsSub ("pub fn ".data) line_str ||
        containsSub ("function".data) line_str ||
        (containsSub ("(".data) line_str && containsSub (")".data) line_str)) &&
       (containsSub ("->".data) line_str ||
        (containsSub ("(".data) line_str && containsSub (")".data) line_str &&
         (containsSub ("fn ".data) line_str || containsSub ("function".data) line_str))) &&
       st.signature.isNone then
      some { st with signature := some line_str, possible_signature_found := true }
    else
      match sanitize_markdown line_str with
      | none => none
      | some sanitized => some { st with doc_lines := st.doc_lines ++ [sanitized] }

/-- `format_hover_data`'s loop over `lines[1..]`. -/
def hover_scan : HoverScanState → List (List Char) → Option HoverScanState
  | st, [] => some st
  | st, line :: rest =>
    match hover_scan_line st line with
    | none => none
    | some st2 => hover_scan st2 rest

/-- The tail of `format_hover_data` (mod.rs:175-221): shorten an over-long
title, sanitize it (possible panic), extract a name from the signature
when the title is still `Unknown`, and assemble the result with `raw` set
to the original input. -/
def hover_finalize (title : List Char)
    (signature documentation source_code : Option (List Char))
    (contents : List Char) : Option (Except (List Char) FormattedHoverData) :=
  let title2 :=
    if containsSub ("\n".data) title ∨ utf8Len title > 100 then
      let parts := splitChars (fun c => c = ' ' ∨ c = '\n' ∨ c = ':' ∨ c = '-') [] title
      let short_title :=
        List.intercalate (" ".data) ((parts.filter (fun s => s ≠ [])).take 3)
      if short_title ≠ [] then short_title ++ ("...".data) else title
    else title
  match sanitize_markdown title2 with
  | none => none
  | some title3 =>
    let title4 :=
      if title3 = ("Unknown".data) ∧ signature.isSome then
        match signature with
        | some sig =>
          if containsSub ("fn ".data) sig then
            match (splitOnSub ("fn ".data) sig).get? 1 with
            | some fn_part =>
              rustTrim ((splitChars (fun c => c = '(') [] fn_part).headD [])
            | none => title3
          else if containsSub ("struct ".data) sig then
            match (splitOnSub ("struct ".data) sig).get? 1 with
            | some struct_part =>
              rustTrim ((splitChars
                (fun c => c = '{' ∨ c = '<' ∨ c = ' ') [] struct_part).headD [])
            | none => title3
          else title3
        | none => title3
      else title3
    some (Except.ok (FormattedHoverData.mk title4 signature documentation source_code contents))

/-- `format_hover_data` (mod.rs:68-221): reject the empty string; take the
first line (with code-fence and language-identifier cleanup) as the title;
scan the remaining lines for code, a signature and sanitized
documentation; then shorten/sanitize the title and assemble the result.
`none` models a panic inside `sanitize_markdown`. -/
def format_hover_data (contents : List Char) : Option (Except (List Char) FormattedHoverData) :=
  if contents = [] then some (Except.error ("Empty hover contents".data))
  else
    match rustLines contents with
    | [] => hover_finalize ("Unknown".data) none none none contents
    | line0 :: restLines =>
      let t0 := rustTrim line0
      let title1 :=
        if containsSub ("```".data) t0 then
          match splitOnSub ("```".data) t0 with
          | _ :: second :: _ =>
            let t := rustTrim second
            match splitWhitespace t with
            | first :: restParts =>
              if lang_tokens.contains first then List.intercalate (" ".data) restParts
              else t
            | [] => t
          | _ => t0
        else t0
      match hover_scan (HoverScanState.mk false [] [] false none) restLines with
      | none => none
      | some st =>
        let signature2 :=
          if st.code_lines ≠ [] ∧ st.signature = none then some (st.code_lines.headD [])
          else st.signature
        let source_code :=
          if st.code_lines ≠ [] then
            (if st.code_lines.length > 1 then
              some (List.intercalate ("\n".data) st.code_lines)
             else if st.code_lines.length = 1 ∧ st.possible_signature_found then
              some (st.code_lines.headD [])
             else none)
          else none
        let documentation :=
          if st.doc_lines ≠ [] then some (List.intercalate ("\n".data) st.doc_lines)
          else none
        hover_finalize title1 signature2 documentation source_code contents

/-- C10 (documents the code bug): `format_hover_data` rejects the empty
string and returns `Ok` with `raw` equal to the input on ordinary ASCII
text, but on the non-empty input `"é"` the byte-indexed `*`-escaping loop
of `sanitize_markdown` steps to byte offset 1 — the middle of the two-byte
character — and the slice `&result[i..]` panics, so the call aborts
instead of returning `Ok`. -/
theorem format_hover_data_panics_on_non_ascii :
    format_hover_data ("é".data) = none ∧
    format_hover_data [] = some (Except.error ("Empty hover contents".data)) ∧
    format_hover_data ("hello".data)
      = some (Except.ok
          (FormattedHoverData.mk ("hello".data) none none none ("hello".data))) :=
  ⟨rfl, rfl, rfl⟩

end Horizon
